import Mathlib

/-!
Verification of the jobcan-bot attendance automation tool.

The embedding models the Rust sources (`src/main.rs`, `src/slack.rs`,
`src/config.rs`).  Rust `&str` values are modelled as `List Char`
(Lean `Char` is a Unicode scalar value, exactly Rust's `char`); the
byte-level operations of the source (`str::len`, `str::split_at`,
byte-range slicing) act on the UTF-8 encoding `strBytes`.  Machine
integers are `Nat` with explicit `2 ^ 32` bounds; a Rust panic
(char-boundary violation, debug-mode arithmetic overflow/underflow)
is the `Except.error` case of a `PanicKind`.
-/

set_option autoImplicit false

namespace JobcanBot

/-- UTF-8 encoding of one Unicode scalar value, as in Rust `str`. -/
def utf8Bytes (c : Char) : List Nat :=
  let n := c.toNat
  if n < 0x80 then [n]
  else if n < 0x800 then [0xC0 + n / 0x40, 0x80 + n % 0x40]
  else if n < 0x10000 then
    [0xE0 + n / 0x1000, 0x80 + n / 0x40 % 0x40, 0x80 + n % 0x40]
  else
    [0xF0 + n / 0x40000, 0x80 + n / 0x1000 % 0x40, 0x80 + n / 0x40 % 0x40, 0x80 + n % 0x40]

/-- The UTF-8 byte sequence of a string; `s.len()` in Rust is its length. -/
def strBytes (s : List Char) : List Nat := (s.map utf8Bytes).flatten

/-- A UTF-8 continuation byte (second/third/fourth byte of a code point). -/
def isContByte (b : Nat) : Bool := 0x80 ≤ b && b < 0xC0

/-- Rust `str::is_char_boundary` at byte index `i`. -/
def isCharBoundary (s : List Nat) (i : Nat) : Bool :=
  i == 0 || i == s.length || !(isContByte (s.getD i 0))

/-- An ASCII decimal digit byte. -/
def isDigitByte (b : Nat) : Bool := 0x30 ≤ b && b ≤ 0x39

/-- Value of a sequence of ASCII digit bytes, most significant first. -/
def digitsVal (l : List Nat) : Nat := l.foldl (fun a b => a * 10 + (b - 0x30)) 0

/-- Rust `str::parse::<u32>()` on a UTF-8 byte sequence: an optional
leading `+`, then one or more ASCII digits, value below `2 ^ 32`. -/
def parseU32 (s : List Nat) : Option Nat :=
  match s with
  | [] => none
  | b :: rest =>
    let digits := if b == 0x2B then rest else b :: rest
    if digits.isEmpty then none
    else if digits.all isDigitByte then
      if digitsVal digits < 2 ^ 32 then some (digitsVal digits) else none
    else none

/-- The Rust panics the embedding can hit: slicing a string off a char
boundary, and debug-mode `u32` overflow/underflow. -/
inductive PanicKind
  | charBoundary
  | addOverflow
  | subUnderflow
  deriving DecidableEq, Repr

/-- `calc_minutes` from `src/main.rs` (lines 466-482).  Turns `"HH:MM"`
into total minutes.  The source operates on bytes: `is_empty`,
`contains(':')`, `len() < 2`, then `split_at(2)` (panics when byte 2 is
not a char boundary), `front[..2].parse::<u32>()`, `back[1..]` (panics
when `back` is empty or byte 1 of `back` is not a char boundary),
`back[1..].parse::<u32>()`, and finally `hours * 60 + minutes` in `u32`.
This is the body, acting on the byte sequence `s` of the argument. -/
def calcMinutesBytes (s : List Nat) : Except PanicKind (Option Nat) :=
  if s.isEmpty then .ok none
  else if !(s.contains 0x3A) then .ok none
  else if s.length < 2 then .ok none
  else if !(isCharBoundary s 2) then .error .charBoundary
  else
    let front := s.take 2
    let back := s.drop 2
    match parseU32 front with
    | none => .ok none
    | some hours =>
      if back.isEmpty then .error .charBoundary
      else if !(isCharBoundary back 1) then .error .charBoundary
      else
        match parseU32 (back.drop 1) with
        | none => .ok none
        | some minutes =>
          if hours * 60 + minutes < 2 ^ 32 then .ok (some (hours * 60 + minutes))
          else .error .addOverflow

/-- `calc_minutes` acts on the string's UTF-8 bytes. -/
def calc_minutes (time_string : List Char) : Except PanicKind (Option Nat) :=
  calcMinutesBytes (strBytes time_string)

/-- `parseU32` applied to the scalar values of a character string. -/
def parseU32Chars (s : List Char) : Option Nat := parseU32 (s.map Char.toNat)

/-- The time parser as the specification describes it, on characters:
`None` when the text is empty, contains no `:`, or is shorter than 2
characters; otherwise split at offset 2, parse the first 2 characters
as hours and the remainder after skipping one delimiter character as
minutes, and return `hours * 60 + minutes`. -/
def specCalcMinutes (s : List Char) : Option Nat :=
  if s.isEmpty then none
  else if !(s.contains ':') then none
  else if s.length < 2 then none
  else
    match parseU32Chars (s.take 2), parseU32Chars ((s.drop 2).drop 1) with
    | some h, some m => some (h * 60 + m)
    | _, _ => none

/-- One scraped attendance table row: the first five cell texts
(`src/main.rs` lines 333-343).  The holiday column is read but unused. -/
structure Row where
  date : List Char
  holiday : List Char
  start_time : List Char
  end_time : List Char
  break_time : List Char

/-- Debug-mode `u32` subtraction: panics on underflow. -/
def subU32 (a b : Nat) : Except PanicKind Nat :=
  if b ≤ a then .ok (a - b) else .error .subUnderflow

/-- Debug-mode `u32` addition: panics on overflow. -/
def addU32 (a b : Nat) : Except PanicKind Nat :=
  if a + b < 2 ^ 32 then .ok (a + b) else .error .addOverflow

/-- Rust `format!` with `{:02}`: decimal digits, zero-padded to width 2. -/
def pad2 (n : Nat) : List Char :=
  if n < 10 then '0' :: Nat.toDigits 10 n else Nat.toDigits 10 n

/-- The CSV line printed per row in `src/main.rs` line 373-376:
`date;start;end;break;HH:MM` with the trailing field zero-padded. -/
def csvLine (r : Row) (total_for_day_without_breaks : Nat) : List Char :=
  r.date ++ ';' :: r.start_time ++ ';' :: r.end_time ++ ';' :: r.break_time ++
    ';' :: (pad2 (total_for_day_without_breaks / 60) ++ ':' :: pad2 (total_for_day_without_breaks % 60))

/-- One iteration of the List row loop (`src/main.rs` lines 352-378),
on running totals `tp` (punched minutes) and `tb` (break minutes).
Returns the new totals plus the CSV line the iteration printed, if any.
The source order is: empty-start check; `calc_minutes` on start, then
end; skip when either is `None`; `calc_minutes` on break with
`unwrap_or_default`; `end - start`; the two `+=`; in CSV mode
`total_for_day - break_minutes` and the `println!`. -/
def processRow (csv : Bool) (tp tb : Nat) (r : Row) :
    Except PanicKind (Nat × Nat × Option (List Char)) :=
  if r.start_time.isEmpty then .ok (tp, tb, none)
  else
    match calc_minutes r.start_time with
    | .error p => .error p
    | .ok start =>
      match calc_minutes r.end_time with
      | .error p => .error p
      | .ok finish =>
        match start, finish with
        | some s, some e =>
          (match calc_minutes r.break_time with
           | .error p => .error p
           | .ok ob =>
             let break_minutes := ob.getD 0
             match subU32 e s with
             | .error p => .error p
             | .ok total_for_day =>
               match addU32 tp total_for_day with
               | .error p => .error p
               | .ok tp' =>
                 match addU32 tb break_minutes with
                 | .error p => .error p
                 | .ok tb' =>
                   if csv then
                     match subU32 total_for_day break_minutes with
                     | .error p => .error p
                     | .ok w => .ok (tp', tb', some (csvLine r w))
                   else .ok (tp', tb', none))
        | _, _ => .ok (tp, tb, none)

/-- The whole List row loop over a sequence of rows, collecting the CSV
lines in order. -/
def runRows (csv : Bool) : List Row → Nat → Nat →
    Except PanicKind (Nat × Nat × List (List Char))
  | [], tp, tb => .ok (tp, tb, [])
  | r :: rs, tp, tb =>
    match processRow csv tp tb r with
    | .error p => .error p
    | .ok (tp', tb', line) =>
      match runRows csv rs tp' tb' with
      | .error p => .error p
      | .ok (tpF, tbF, lines) => .ok (tpF, tbF, line.toList ++ lines)

/-- The grand-total computation after the loop (`src/main.rs` lines
414-437): when any minutes were punched, subtract the break total and
render as zero-padded hours and minutes; otherwise `(0, 0)`. -/
def grandTotals (total_punched_minutes total_break_minutes : Nat) :
    Except PanicKind (Nat × Nat) :=
  if total_punched_minutes > 0 then
    match subU32 total_punched_minutes total_break_minutes with
    | .error p => .error p
    | .ok total_punched_minutes_without_breaks =>
      .ok (total_punched_minutes_without_breaks / 60,
           total_punched_minutes_without_breaks % 60)
  else .ok (0, 0)

/-- Worked minutes a row contributes per the specification: `end - start`
when both timestamps parse, zero otherwise (a counted row). -/
def rowWorked (r : Row) : Nat :=
  match calc_minutes r.start_time, calc_minutes r.end_time with
  | .ok (some s), .ok (some e) => e - s
  | _, _ => 0

/-- Break minutes a row contributes per the specification: its parsed
break, or zero when break fails to parse, and only for counted rows. -/
def rowBreak (r : Row) : Nat :=
  match calc_minutes r.start_time, calc_minutes r.end_time,
        calc_minutes r.break_time with
  | .ok (some _), .ok (some _), .ok ob => ob.getD 0
  | _, _, _ => 0

/-- Rust `str::parse::<i64>()` on a UTF-8 byte sequence: optional `+`
or `-` sign, one or more ASCII digits, `i64` range. -/
def parseI64 (s : List Nat) : Option Int :=
  match s with
  | [] => none
  | b :: rest =>
    let digits := if b == 0x2D || b == 0x2B then rest else b :: rest
    if digits.isEmpty then none
    else if digits.all isDigitByte then
      if b == 0x2D then
        if digitsVal digits ≤ 2 ^ 63 then some (-(digitsVal digits : Int)) else none
      else
        if digitsVal digits < 2 ^ 63 then some ((digitsVal digits : Int)) else none
    else none

/-- The distinct `bail!`/propagated-error sites of the pre-flight
sanity check in `src/main.rs` lines 130-155. -/
inductive PreflightError
  | dateFormat
  | timeLength
  | timeParse
  | timeRange
  | loginGuard
  deriving DecidableEq, Repr

/-- The revise-clock time checks (`src/main.rs` lines 141-149):
`time.len() != 4` bails, then `parse::<i64>()?`, then the value must
lie in `0..=2600`. -/
def validateReviseTime (time : List Char) : Except PreflightError Unit :=
  if (strBytes time).length ≠ 4 then .error .timeLength
  else
    match parseI64 (strBytes time) with
    | none => .error .timeParse
    | some t => if 0 ≤ t ∧ t ≤ 2600 then .ok () else .error .timeRange

/-- The revise-clock branch of the pre-flight check (`src/main.rs`
lines 136-150): an optionally supplied date must parse as `%Y-%m-%d`
(the external chrono parse is the parameter `parseDashed`), then the
time checks run. -/
def validateReviseClock (parseDashed : List Char → Bool)
    (date : Option (List Char)) (time : List Char) : Except PreflightError Unit :=
  match date with
  | some d => if parseDashed d then validateReviseTime time else .error .dateFormat
  | none => validateReviseTime time

/-- The CLI subcommands (`src/main.rs` lines 47-62). -/
inductive SubCommand
  | pushIt (message slack_message slack_channel : List Char)
  | reviseClockingData (date : Option (List Char)) (time message : List Char)
  | login
  | list (date : Option (List Char)) (csv : Bool)

/-- The pre-flight sanity check before the browser starts
(`src/main.rs` lines 130-155): revise-clock argument validation, and
the login guard `!opts.visible || opts.sleep_time.is_none()`.  The
other subcommands pass through. -/
def preflight (parseDashed : List Char → Bool) (visible : Bool)
    (sleep_time : Option Nat) : SubCommand → Except PreflightError Unit
  | .reviseClockingData d t _ => validateReviseClock parseDashed d t
  | .login =>
    if !visible || sleep_time.isNone then .error .loginGuard else .ok ()
  | _ => .ok ()

/-- Externally observable milestones of one run, in order. -/
inductive Event
  | preflightFail
  | sessionOpen
  | listDateFail
  | done
  deriving DecidableEq, Repr

/-- The order of operations of `main`: the pre-flight check runs first
(`src/main.rs` lines 130-155); only then is the WebDriver session
opened (line 166); the `list` month argument is reinterpreted as
`YYYYMM ++ "01"` and parsed as `%Y%m%d` only inside the List action
(lines 301-303), after the session is open.  Browser interactions
themselves are abstracted as succeeding; `parseDashed`/`parseCompact`
stand for the external chrono parses. -/
def mainEvents (parseDashed parseCompact : List Char → Bool) (visible : Bool)
    (sleep_time : Option Nat) (cmd : SubCommand) : List Event :=
  match preflight parseDashed visible sleep_time cmd with
  | .error _ => [.preflightFail]
  | .ok _ =>
    Event.sessionOpen ::
      match cmd with
      | .list (some ds) _ =>
        if parseCompact (ds ++ ('0' :: ['1'])) then [.done] else [.listDateFail]
      | _ => [.done]

/-- Modelled from the spec: leap years of the proleptic Gregorian
calendar, for the external chrono date validation. -/
def isLeapYear (y : Nat) : Bool := (y % 4 == 0 && y % 100 != 0) || y % 400 == 0

/-- Modelled from the spec: days per month, for the external chrono
date validation. -/
def daysInMonth (y m : Nat) : Nat :=
  if m == 2 then (if isLeapYear y then 29 else 28)
  else if m == 4 || m == 6 || m == 9 || m == 11 then 30
  else 31

/-- Modelled from the spec: a valid calendar date. -/
def validYMD (y m d : Nat) : Bool :=
  1 ≤ m && m ≤ 12 && 1 ≤ d && d ≤ daysInMonth y m

/-- Digit value of an ASCII digit character. -/
def charDigit (c : Char) : Nat := c.toNat - 0x30

/-- Modelled from the spec: the external chrono parse of format
`%Y-%m-%d` (`YYYY-MM-DD`), which decides only whether the run is
rejected. -/
def parseDashedDate (s : List Char) : Bool :=
  match s with
  | [y1, y2, y3, y4, h1, m1, m2, h2, d1, d2] =>
    [y1, y2, y3, y4, m1, m2, d1, d2].all Char.isDigit && h1 == '-' && h2 == '-' &&
      validYMD (charDigit y1 * 1000 + charDigit y2 * 100 + charDigit y3 * 10 + charDigit y4)
        (charDigit m1 * 10 + charDigit m2) (charDigit d1 * 10 + charDigit d2)
  | _ => false

/-- Modelled from the spec: the external chrono parse of format
`%Y%m%d` (`YYYYMMDD`), which decides only whether the run is
rejected. -/
def parseCompactDate (s : List Char) : Bool :=
  match s with
  | [y1, y2, y3, y4, m1, m2, d1, d2] =>
    [y1, y2, y3, y4, m1, m2, d1, d2].all Char.isDigit &&
      validYMD (charDigit y1 * 1000 + charDigit y2 * 100 + charDigit y3 * 10 + charDigit y4)
        (charDigit m1 * 10 + charDigit m2) (charDigit d1 * 10 + charDigit d2)
  | _ => false

/-- The credential/notification configuration (`src/config.rs`). -/
structure Configuration where
  login : List Char
  password : List Char
  slack_user_token : List Char
  slack_user_name : List Char

/-- `Configuration::can_post_to_slack` (`src/config.rs` lines 44-46). -/
def Configuration.can_post_to_slack (c : Configuration) : Bool :=
  !c.slack_user_token.isEmpty && !c.slack_user_name.isEmpty

/-- A workspace member as returned by the users-list call
(`src/slack.rs` lines 45-52): an id and an optional name. -/
structure SlackMember where
  id : List Char
  name : Option (List Char)

/-- A profile icon: optional image list of (resolution, url) pairs. -/
structure SlackIcon where
  images : Option (List (Nat × List Char))

/-- A user profile (`src/slack.rs` lines 71-90). -/
structure SlackProfile where
  display_name : Option (List Char)
  icon : Option SlackIcon

/-- The users-info response: a user with an optional profile. -/
structure SlackUserInfo where
  profile : Option SlackProfile

/-- The chat-post-message request being assembled
(`src/slack.rs` lines 67-78). -/
structure PostMessageReq where
  channel : List Char
  text : List Char
  username : Option (List Char)
  icon_url : Option (List Char)

/-- How `post_to_slack` can fail the run: the two `panic!` sites and
the `?`-propagated API errors. -/
inductive SlackError
  | channelMarkerMissing
  | userNotFound
  | noProfile
  | apiUsersList
  | apiUsersInfo
  | apiPost
  deriving DecidableEq, Repr

/-- `post_to_slack` from `src/slack.rs` (lines 6-95).  The three remote
calls are parameters (`users_list`, `users_info`, `chat_post`); `.error`
on their side models a Rust `Err`.  Faithful order: configuration
check, `channel.contains('#')` check (a `panic!`), users-list, find the
member whose `name` equals `Some(username)` (`panic!` when absent),
users-info on its id, build the post request, set username from the
profile display name (`panic!` when the profile is absent), optionally
set the 48x48 icon url, then post. -/
def post_to_slack (config : Configuration) (channel message : List Char)
    (users_list : Except Unit (List SlackMember))
    (users_info : List Char → Except Unit SlackUserInfo)
    (chat_post : PostMessageReq → Except Unit Unit) : Except SlackError Unit :=
  if !config.can_post_to_slack then .ok ()
  else if !(channel.contains '#') then .error .channelMarkerMissing
  else
    match users_list with
    | .error _ => .error .apiUsersList
    | .ok members =>
      match members.find? (fun u => u.name == some config.slack_user_name) with
      | none => .error .userNotFound
      | some member =>
        match users_info member.id with
        | .error _ => .error .apiUsersInfo
        | .ok info =>
          let req0 : PostMessageReq :=
            { channel := channel, text := message, username := none, icon_url := none }
          match info.profile with
          | none => .error .noProfile
          | some profile =>
            let req1 := { req0 with
              username := some (profile.display_name.getD config.slack_user_name) }
            let req2 :=
              match profile.icon with
              | some icon =>
                match icon.images with
                | some images =>
                  match images.find? (fun p => p.fst == 48) with
                  | some res => { req1 with icon_url := some res.snd }
                  | none => req1
                | none => req1
              | none => req1
            match chat_post req2 with
            | .error _ => .error .apiPost
            | .ok _ => .ok ()

theorem char_eq_of_toNat_eq {c d : Char} (h : c.toNat = d.toNat) : c = d := by
  have h1 := Char.ofNat_toNat c
  have h2 := Char.ofNat_toNat d
  rw [← h1, ← h2, h]

theorem utf8Bytes_ascii {c : Char} (h : c.toNat < 0x80) : utf8Bytes c = [c.toNat] := by
  simp [utf8Bytes, h]

theorem utf8Bytes_two {c : Char} (h1 : 0x80 ≤ c.toNat) (h2 : c.toNat < 0x800) :
    utf8Bytes c = [0xC0 + c.toNat / 0x40, 0x80 + c.toNat % 0x40] := by
  simp [utf8Bytes, h2, Nat.not_lt.mpr h1]

theorem utf8Bytes_ne_nil (c : Char) : utf8Bytes c ≠ [] := by
  unfold utf8Bytes
  dsimp only
  split
  · simp
  · split
    · simp
    · split <;> simp

theorem utf8Bytes_length_pos (c : Char) : 0 < (utf8Bytes c).length := by
  cases h : utf8Bytes c with
  | nil => exact absurd h (utf8Bytes_ne_nil c)
  | cons b l => simp

theorem utf8Bytes_length_ge_two {c : Char} (h : 0x80 ≤ c.toNat) :
    2 ≤ (utf8Bytes c).length := by
  unfold utf8Bytes
  dsimp only
  rw [if_neg (by omega)]
  split
  · simp
  · split <;> simp

theorem utf8Bytes_length_ge_three {c : Char} (h : 0x800 ≤ c.toNat) :
    3 ≤ (utf8Bytes c).length := by
  unfold utf8Bytes
  dsimp only
  rw [if_neg (by omega), if_neg (by omega)]
  split <;> simp

theorem mem_utf8Bytes_ge {c : Char} (h : 0x80 ≤ c.toNat) :
    ∀ b ∈ utf8Bytes c, 0x80 ≤ b := by
  intro b hb
  unfold utf8Bytes at hb
  dsimp only at hb
  rw [if_neg (by omega)] at hb
  split at hb
  · simp at hb
    rcases hb with rfl | rfl <;> omega
  · split at hb <;> simp at hb
    · rcases hb with rfl | rfl | rfl <;> omega
    · rcases hb with rfl | rfl | rfl | rfl <;> omega

theorem utf8Bytes_getD_zero_not_cont (c : Char) :
    isContByte ((utf8Bytes c).getD 0 0) = false := by
  unfold utf8Bytes
  dsimp only
  split
  · rename_i h
    simp [isContByte]
    omega
  · split
    · simp [isContByte]
    · split <;> simp [isContByte] <;> omega

theorem utf8Bytes_getD_one_cont {c : Char} (h : 0x80 ≤ c.toNat) :
    isContByte ((utf8Bytes c).getD 1 0) = true := by
  unfold utf8Bytes
  dsimp only
  rw [if_neg (by omega)]
  split
  · simp [isContByte]
    omega
  · split <;> simp [isContByte] <;> omega

theorem utf8Bytes_getD_two_cont {c : Char} (h : 0x800 ≤ c.toNat) :
    isContByte ((utf8Bytes c).getD 2 0) = true := by
  unfold utf8Bytes
  dsimp only
  rw [if_neg (by omega), if_neg (by omega)]
  split <;> simp [isContByte] <;> omega

theorem mem_utf8Bytes_colon (c : Char) : 0x3A ∈ utf8Bytes c ↔ c = ':' := by
  constructor
  · intro hb
    by_cases h : c.toNat < 0x80
    · rw [utf8Bytes_ascii h] at hb
      simp at hb
      exact char_eq_of_toNat_eq hb.symm
    · have := mem_utf8Bytes_ge (Nat.not_lt.mp h) 0x3A hb
      omega
  · rintro rfl
    rw [utf8Bytes_ascii (by decide)]
    decide

theorem strBytes_nil : strBytes [] = [] := rfl

theorem strBytes_cons (c : Char) (s : List Char) :
    strBytes (c :: s) = utf8Bytes c ++ strBytes s := rfl

theorem strBytes_eq_nil {s : List Char} : strBytes s = [] ↔ s = [] := by
  cases s with
  | nil => simp [strBytes_nil]
  | cons c t =>
    rw [strBytes_cons]
    simp [utf8Bytes_ne_nil]

theorem strBytes_ascii : ∀ {s : List Char}, (∀ c ∈ s, c.toNat < 0x80) →
    strBytes s = s.map Char.toNat
  | [], _ => rfl
  | c :: t, h => by
    rw [strBytes_cons, utf8Bytes_ascii (h c (by simp)),
      strBytes_ascii (fun d hd => h d (by simp [hd]))]
    rfl

theorem mem_strBytes_colon (s : List Char) : 0x3A ∈ strBytes s ↔ (':') ∈ s := by
  induction s with
  | nil => simp [strBytes_nil]
  | cons c t ih =>
    rw [strBytes_cons]
    simp only [List.mem_append, List.mem_cons, ih, mem_utf8Bytes_colon]
    constructor
    · rintro (rfl | h)
      · exact Or.inl rfl
      · exact Or.inr h
    · rintro (rfl | h)
      · exact Or.inl rfl
      · exact Or.inr h

theorem strBytes_length_ge (s : List Char) : s.length ≤ (strBytes s).length := by
  induction s with
  | nil => simp [strBytes_nil]
  | cons c t ih =>
    rw [strBytes_cons]
    have := utf8Bytes_length_pos c
    simp only [List.length_append, List.length_cons]
    omega

theorem strBytes_getD_zero (c : Char) (t : List Char) :
    (strBytes (c :: t)).getD 0 0 = (utf8Bytes c).getD 0 0 := by
  rw [strBytes_cons]
  cases h : utf8Bytes c with
  | nil => exact absurd h (utf8Bytes_ne_nil c)
  | cons b l => simp

theorem parseU32_all_digits {s : List Nat} {v : Nat} (h : parseU32 s = some v) :
    ∀ b ∈ s, b = 0x2B ∨ isDigitByte b = true := by
  intro b hb
  cases s with
  | nil => simp at hb
  | cons a rest =>
    simp only [parseU32] at h
    by_cases hp : (a == 0x2B) = true
    · simp only [hp, if_true] at h
      split at h
      · exact absurd h (by simp)
      · split at h
        · rename_i hall
          rcases List.mem_cons.mp hb with rfl | hbr
          · exact Or.inl (by simpa using hp)
          · exact Or.inr (List.all_eq_true.mp hall b hbr)
        · exact absurd h (by simp)
    · simp only [Bool.not_eq_true] at hp
      simp only [hp, Bool.false_eq_true, if_false] at h
      split at h
      · exact absurd h (by simp)
      · split at h
        · rename_i hall
          exact Or.inr (List.all_eq_true.mp hall b hb)
        · exact absurd h (by simp)

theorem parseU32_none_of_ge {s : List Nat} {b : Nat} (hb : b ∈ s) (h : 0x80 ≤ b) :
    parseU32 s = none := by
  cases hp : parseU32 s with
  | none => rfl
  | some v =>
    rcases parseU32_all_digits hp b hb with rfl | hd
    · omega
    · simp [isDigitByte] at hd
      omega

theorem digitsVal_foldl_lt : ∀ (l : List Nat) (a : Nat),
    (∀ b ∈ l, isDigitByte b = true) →
    List.foldl (fun x b => x * 10 + (b - 0x30)) a l < (a + 1) * 10 ^ l.length
  | [], a, _ => by simp
  | b :: t, a, h => by
    have hb : isDigitByte b = true := h b (by simp)
    have hd : b - 0x30 ≤ 9 := by
      simp [isDigitByte] at hb
      omega
    have ih := digitsVal_foldl_lt t (a * 10 + (b - 0x30))
      (fun x hx => h x (by simp [hx]))
    simp only [List.foldl_cons, List.length_cons]
    have h1 : a * 10 + (b - 0x30) + 1 ≤ (a + 1) * 10 := by omega
    have h2 : (a * 10 + (b - 0x30) + 1) * 10 ^ t.length ≤ (a + 1) * 10 * 10 ^ t.length :=
      Nat.mul_le_mul_right _ h1
    have h3 : (a + 1) * 10 * 10 ^ t.length = (a + 1) * 10 ^ (t.length + 1) := by ring
    exact lt_of_lt_of_le ih (h3 ▸ h2)

theorem digitsVal_lt {l : List Nat} (h : ∀ b ∈ l, isDigitByte b = true) :
    digitsVal l < 10 ^ l.length := by
  have := digitsVal_foldl_lt l 0 h
  simpa [digitsVal] using this

theorem parseU32_lt {s : List Nat} {v : Nat} (h : parseU32 s = some v) :
    v < 10 ^ s.length := by
  cases s with
  | nil => simp [parseU32] at h
  | cons a rest =>
    simp only [parseU32] at h
    have key : ∀ digits : List Nat, digits.length ≤ (a :: rest).length →
        (if digits.isEmpty then none
         else if digits.all isDigitByte then
           if digitsVal digits < 2 ^ 32 then some (digitsVal digits) else none
         else none) = some v →
        v < 10 ^ (a :: rest).length := by
      intro digits hlen hd
      split at hd
      · exact absurd hd (by simp)
      · split at hd
        · rename_i hall
          split at hd
          · have hv : digitsVal digits = v := by
              simpa using hd
            have := digitsVal_lt (List.all_eq_true.mp hall)
            calc v = digitsVal digits := hv.symm
            _ < 10 ^ digits.length := this
            _ ≤ 10 ^ (a :: rest).length := Nat.pow_le_pow_right (by omega) hlen
          · exact absurd hd (by simp)
        · exact absurd hd (by simp)
    by_cases hp : (a == 0x2B) = true
    · simp only [hp, if_true] at h
      exact key rest (by simp) h
    · simp only [Bool.not_eq_true] at hp
      simp only [hp, Bool.false_eq_true, if_false] at h
      exact key (a :: rest) (by simp) h

theorem mem_strBytes_of_mem {c : Char} {t : List Char} (hc : c ∈ t) {x : Nat}
    (hx : x ∈ utf8Bytes c) : x ∈ strBytes t := by
  induction t with
  | nil => simp at hc
  | cons d t ih =>
    rw [strBytes_cons]
    rcases List.mem_cons.mp hc with rfl | h
    · exact List.mem_append.mpr (Or.inl hx)
    · exact List.mem_append.mpr (Or.inr (ih h))

theorem exists_high_byte {t : List Char} {c : Char} (hc : c ∈ t)
    (h : 0x80 ≤ c.toNat) : ∃ b ∈ strBytes t, 0x80 ≤ b := by
  cases henc : utf8Bytes c with
  | nil => exact absurd henc (utf8Bytes_ne_nil c)
  | cons x l =>
    refine ⟨x, mem_strBytes_of_mem hc (by simp [henc]), ?_⟩
    exact mem_utf8Bytes_ge h x (by simp [henc])

theorem parseU32_strBytes (t : List Char) : parseU32 (strBytes t) = parseU32Chars t := by
  by_cases h : ∀ c ∈ t, c.toNat < 0x80
  · rw [parseU32Chars, strBytes_ascii h]
  · push_neg at h
    obtain ⟨c, hc, hge⟩ := h
    obtain ⟨b, hb, hb80⟩ := exists_high_byte hc (Nat.not_lt.mp (by simpa using hge))
    rw [parseU32_none_of_ge hb hb80, parseU32Chars,
      parseU32_none_of_ge (List.mem_map_of_mem Char.toNat hc) (by simpa using hge)]

theorem parseI64_all_digits {s : List Nat} {v : Int} (h : parseI64 s = some v) :
    ∀ b ∈ s, b = 0x2D ∨ b = 0x2B ∨ isDigitByte b = true := by
  intro b hb
  cases s with
  | nil => simp at hb
  | cons a rest =>
    simp only [parseI64] at h
    by_cases hp : (a == 0x2D || a == 0x2B) = true
    · simp only [hp, if_true] at h
      split at h
      · exact absurd h (by simp)
      · split at h
        · rename_i hall
          rcases List.mem_cons.mp hb with rfl | hbr
          · rcases Bool.or_eq_true_iff.mp hp with h1 | h1
            · exact Or.inl (by simpa using h1)
            · exact Or.inr (Or.inl (by simpa using h1))
          · exact Or.inr (Or.inr (List.all_eq_true.mp hall b hbr))
        · exact absurd h (by simp)
    · simp only [Bool.not_eq_true] at hp
      simp only [hp, Bool.false_eq_true, if_false] at h
      split at h
      · exact absurd h (by simp)
      · split at h
        · rename_i hall
          exact Or.inr (Or.inr (List.all_eq_true.mp hall b hb))
        · exact absurd h (by simp)

theorem parseI64_none_of_ge {s : List Nat} {b : Nat} (hb : b ∈ s) (h : 0x80 ≤ b) :
    parseI64 s = none := by
  cases hp : parseI64 s with
  | none => rfl
  | some v =>
    rcases parseI64_all_digits hp b hb with rfl | rfl | hd
    · omega
    · omega
    · simp [isDigitByte] at hd
      omega

theorem parseI64_strBytes (t : List Char) :
    parseI64 (strBytes t) = parseI64 (t.map Char.toNat) := by
  by_cases h : ∀ c ∈ t, c.toNat < 0x80
  · rw [strBytes_ascii h]
  · push_neg at h
    obtain ⟨c, hc, hge⟩ := h
    obtain ⟨b, hb, hb80⟩ := exists_high_byte hc (Nat.not_lt.mp (by simpa using hge))
    rw [parseI64_none_of_ge hb hb80,
      parseI64_none_of_ge (List.mem_map_of_mem Char.toNat hc) (by simpa using hge)]

theorem calcMinutesBytes_no_colon {s : List Nat} (h : 0x3A ∉ s) :
    calcMinutesBytes s = .ok none := by
  unfold calcMinutesBytes
  split
  · rfl
  · rw [if_pos]
    simpa using h

theorem calc_minutes_no_colon {s : List Char} (h : (':') ∉ s) :
    calc_minutes s = .ok none := by
  rw [calc_minutes]
  exact calcMinutesBytes_no_colon (fun hc => h ((mem_strBytes_colon s).mp hc))

theorem specCalcMinutes_no_colon {s : List Char} (h : (':') ∉ s) :
    specCalcMinutes s = none := by
  unfold specCalcMinutes
  split
  · rfl
  · rw [if_pos]
    simpa using h

theorem calcMinutesBytes_main {s : List Nat} (hne : s ≠ []) (hcol : 0x3A ∈ s)
    (hlen : 2 ≤ s.length) (hbd : isCharBoundary s 2 = true) :
    calcMinutesBytes s =
      match parseU32 (s.take 2) with
      | none => .ok none
      | some hours =>
        if (s.drop 2).isEmpty then .error .charBoundary
        else if !(isCharBoundary (s.drop 2) 1) then .error .charBoundary
        else
          match parseU32 ((s.drop 2).drop 1) with
          | none => .ok none
          | some minutes =>
            if hours * 60 + minutes < 2 ^ 32 then .ok (some (hours * 60 + minutes))
            else .error .addOverflow := by
  unfold calcMinutesBytes
  rw [if_neg (by simpa using hne), if_neg (by simpa using hcol),
    if_neg (Nat.not_lt.mpr hlen), if_neg (by simp [hbd])]

theorem calcMinutesBytes_bad_boundary {s : List Nat} (hne : s ≠ []) (hcol : 0x3A ∈ s)
    (hlen : 2 ≤ s.length) (hbd : isCharBoundary s 2 = false) :
    calcMinutesBytes s = .error .charBoundary := by
  unfold calcMinutesBytes
  rw [if_neg (by simpa using hne), if_neg (by simpa using hcol),
    if_neg (Nat.not_lt.mpr hlen), if_pos (by simp [hbd])]

theorem specCalcMinutes_main {s : List Char} (hne : s ≠ []) (hcol : (':') ∈ s)
    (hlen : 2 ≤ s.length) :
    specCalcMinutes s =
      match parseU32Chars (s.take 2), parseU32Chars ((s.drop 2).drop 1) with
      | some h, some m => some (h * 60 + m)
      | _, _ => none := by
  unfold specCalcMinutes
  rw [if_neg (by simpa using hne), if_neg (by simpa using hcol),
    if_neg (Nat.not_lt.mpr hlen)]

theorem strBytes_cons_cons_ascii {c1 c2 : Char} (h1 : c1.toNat < 0x80)
    (h2 : c2.toNat < 0x80) (t : List Char) :
    strBytes (c1 :: c2 :: t) = c1.toNat :: c2.toNat :: strBytes t := by
  rw [strBytes_cons, strBytes_cons, utf8Bytes_ascii h1, utf8Bytes_ascii h2]
  rfl

theorem isCharBoundary_cons_cons_two (b1 b2 : Nat) (t : List Char) :
    isCharBoundary (b1 :: b2 :: strBytes t) 2 = true := by
  cases t with
  | nil => simp [isCharBoundary, strBytes_nil]
  | cons c3 t3 =>
    have hg : (b1 :: b2 :: strBytes (c3 :: t3)).getD 2 0 = (utf8Bytes c3).getD 0 0 :=
      strBytes_getD_zero c3 t3
    unfold isCharBoundary
    rw [hg, utf8Bytes_getD_zero_not_cont c3]
    simp

theorem isCharBoundary_cons_one (b1 : Nat) (t : List Char) :
    isCharBoundary (b1 :: strBytes t) 1 = true := by
  cases t with
  | nil => simp [isCharBoundary, strBytes_nil]
  | cons c3 t3 =>
    have hg : (b1 :: strBytes (c3 :: t3)).getD 1 0 = (utf8Bytes c3).getD 0 0 :=
      strBytes_getD_zero c3 t3
    unfold isCharBoundary
    rw [hg, utf8Bytes_getD_zero_not_cont c3]
    simp

theorem isCharBoundary_eq_false {s : List Nat} {i : Nat} (h0 : i ≠ 0)
    (hlen : i ≠ s.length) (hcont : isContByte (s.getD i 0) = true) :
    isCharBoundary s i = false := by
  unfold isCharBoundary
  rw [hcont]
  simp [h0, hlen]

theorem calc_minutes_ok : ∀ (s : List Char) (r : Option Nat),
    calc_minutes s = .ok r → r = specCalcMinutes s
  | [], r, h => by
    have : calc_minutes [] = .ok none := rfl
    rw [this] at h
    simpa [specCalcMinutes] using (Except.ok.inj h).symm
  | [c1], r, h => by
    by_cases hc : c1 = ':'
    · subst hc
      have hb : calc_minutes [(':')] = .ok none := rfl
      rw [hb] at h
      have : r = none := (Except.ok.inj h).symm
      rw [this]
      rfl
    · have hmem : (':') ∉ [c1] := by
        simp only [List.mem_singleton]
        exact fun he => hc he.symm
      rw [calc_minutes_no_colon hmem] at h
      rw [specCalcMinutes_no_colon hmem]
      exact (Except.ok.inj h).symm
  | c1 :: c2 :: t2, r, h => by
    by_cases hcol : (':') ∈ c1 :: c2 :: t2
    case neg =>
      rw [calc_minutes_no_colon hcol] at h
      rw [specCalcMinutes_no_colon hcol]
      exact (Except.ok.inj h).symm
    case pos =>
    have hneC : (c1 :: c2 :: t2 : List Char) ≠ [] := by simp
    have hlenC : 2 ≤ (c1 :: c2 :: t2 : List Char).length := by simp
    rw [specCalcMinutes_main hneC hcol hlenC]
    by_cases hc1 : c1.toNat < 0x80
    · by_cases hc2 : c2.toNat < 0x80
      · -- both leading characters ASCII
        have hbytes := strBytes_cons_cons_ascii hc1 hc2 t2
        have hcolB : 0x3A ∈ c1.toNat :: c2.toNat :: strBytes t2 := by
          rw [← hbytes]
          exact (mem_strBytes_colon _).mpr hcol
        have hbd : isCharBoundary (c1.toNat :: c2.toNat :: strBytes t2) 2 = true :=
          isCharBoundary_cons_cons_two _ _ t2
        rw [calc_minutes, hbytes,
          calcMinutesBytes_main (by simp) hcolB (by simp) hbd] at h
        simp only [List.take_succ_cons, List.take_zero, List.drop_succ_cons,
          List.drop_zero] at h
        have hfrontEq : parseU32Chars ((c1 :: c2 :: t2).take 2) =
            parseU32 [c1.toNat, c2.toNat] := by
          simp [parseU32Chars]
        cases hfront : parseU32 [c1.toNat, c2.toNat] with
        | none =>
          rw [hfront] at h
          rw [hfrontEq, hfront]
          exact (Except.ok.inj h).symm
        | some hh =>
          rw [hfront] at h
          rw [hfrontEq, hfront]
          dsimp only at h
          cases t2 with
          | nil => simp [strBytes_nil] at h
          | cons c3 t3 =>
            by_cases hc3 : c3.toNat < 0x80
            · have hback : strBytes (c3 :: t3) = c3.toNat :: strBytes t3 := by
                rw [strBytes_cons, utf8Bytes_ascii hc3]
                rfl
              have hbd1 : isCharBoundary (c3.toNat :: strBytes t3) 1 = true :=
                isCharBoundary_cons_one _ t3
              rw [hback] at h
              rw [if_neg (by simp), if_neg (by simp [hbd1])] at h
              simp only [List.drop_succ_cons, List.drop_zero] at h
              rw [parseU32_strBytes t3] at h
              simp only [List.drop_succ_cons, List.drop_zero]
              cases hmin : parseU32Chars t3 with
              | none =>
                rw [hmin] at h
                exact (Except.ok.inj h).symm
              | some mm =>
                rw [hmin] at h
                dsimp only at h
                split at h
                · exact (Except.ok.inj h).symm
                · exact absurd h (by simp)
            · have h80 : 0x80 ≤ c3.toNat := Nat.not_lt.mp hc3
              have hlen2 := utf8Bytes_length_ge_two h80
              have hlen3 : 2 ≤ (strBytes (c3 :: t3)).length := by
                rw [strBytes_cons]
                simp only [List.length_append]
                omega
              have hgd : (strBytes (c3 :: t3)).getD 1 0 = (utf8Bytes c3).getD 1 0 := by
                rw [strBytes_cons]
                exact List.getD_append _ _ _ _ (by omega)
              have hbd1 : isCharBoundary (strBytes (c3 :: t3)) 1 = false :=
                isCharBoundary_eq_false (by omega) (by omega)
                  (by rw [hgd]; exact utf8Bytes_getD_one_cont h80)
              have hne3 : (strBytes (c3 :: t3)).isEmpty = false := by
                simpa using (show strBytes (c3 :: t3) ≠ [] by simp [strBytes_eq_nil])
              rw [if_neg (by simp [hne3]), if_pos (by simp [hbd1])] at h
              exact absurd h (by simp)
      · -- first char ASCII, second multi-byte: split_at(2) panics
        have h80 : 0x80 ≤ c2.toNat := Nat.not_lt.mp hc2
        have hlen2 := utf8Bytes_length_ge_two h80
        have hbytes : strBytes (c1 :: c2 :: t2) =
            c1.toNat :: (utf8Bytes c2 ++ strBytes t2) := by
          rw [strBytes_cons, strBytes_cons, utf8Bytes_ascii hc1]
          rfl
        have hcolB : 0x3A ∈ strBytes (c1 :: c2 :: t2) :=
          (mem_strBytes_colon _).mpr hcol
        have hgd : (strBytes (c1 :: c2 :: t2)).getD 2 0 = (utf8Bytes c2).getD 1 0 := by
          rw [hbytes]
          rw [List.getD_cons_succ]
          exact List.getD_append _ _ _ _ (by omega)
        have hlenB : 2 ≤ (strBytes (c1 :: c2 :: t2)).length :=
          le_trans (by simp) (strBytes_length_ge _)
        have hlenB3 : 3 ≤ (strBytes (c1 :: c2 :: t2)).length := by
          rw [hbytes]
          simp only [List.length_cons, List.length_append]
          omega
        have hbd : isCharBoundary (strBytes (c1 :: c2 :: t2)) 2 = false :=
          isCharBoundary_eq_false (by omega) (by omega)
            (by rw [hgd]; exact utf8Bytes_getD_one_cont h80)
        rw [calc_minutes,
          calcMinutesBytes_bad_boundary (by simp [strBytes_eq_nil]) hcolB hlenB hbd] at h
        exact absurd h (by simp)
    · by_cases hc1b : c1.toNat < 0x800
      · -- two-byte first character: front is its encoding, hours never parse
        have h80 : 0x80 ≤ c1.toNat := Nat.not_lt.mp hc1
        have hbytes : strBytes (c1 :: c2 :: t2) =
            (0xC0 + c1.toNat / 0x40) :: (0x80 + c1.toNat % 0x40) :: strBytes (c2 :: t2) := by
          rw [strBytes_cons, utf8Bytes_two h80 hc1b]
          rfl
        have hcolB : 0x3A ∈ strBytes (c1 :: c2 :: t2) :=
          (mem_strBytes_colon _).mpr hcol
        have hbd : isCharBoundary (strBytes (c1 :: c2 :: t2)) 2 = true := by
          rw [hbytes]
          exact isCharBoundary_cons_cons_two _ _ (c2 :: t2)
        have hlenB : 2 ≤ (strBytes (c1 :: c2 :: t2)).length :=
          le_trans (by simp) (strBytes_length_ge _)
        rw [calc_minutes,
          calcMinutesBytes_main (by simp [strBytes_eq_nil]) hcolB hlenB hbd] at h
        rw [hbytes] at h
        simp only [List.take_succ_cons, List.take_zero] at h
        have hfrontNone : parseU32 [0xC0 + c1.toNat / 0x40, 0x80 + c1.toNat % 0x40] = none :=
          @parseU32_none_of_ge [0xC0 + c1.toNat / 0x40, 0x80 + c1.toNat % 0x40]
            (0xC0 + c1.toNat / 0x40) (by simp) (by omega)
        rw [hfrontNone] at h
        have hspecNone : parseU32Chars ((c1 :: c2 :: t2).take 2) = none := by
          simp only [List.take_succ_cons, List.take_zero, parseU32Chars, List.map]
          exact @parseU32_none_of_ge [c1.toNat, c2.toNat] c1.toNat (by simp) h80
        rw [hspecNone]
        exact (Except.ok.inj h).symm
      · -- three- or four-byte first character: split_at(2) panics
        have h800 : 0x800 ≤ c1.toNat := Nat.not_lt.mp hc1b
        have hlen3 := utf8Bytes_length_ge_three h800
        have hcolB : 0x3A ∈ strBytes (c1 :: c2 :: t2) :=
          (mem_strBytes_colon _).mpr hcol
        have hgd : (strBytes (c1 :: c2 :: t2)).getD 2 0 = (utf8Bytes c1).getD 2 0 := by
          rw [strBytes_cons]
          exact List.getD_append _ _ _ _ (by omega)
        have hlenB : 2 ≤ (strBytes (c1 :: c2 :: t2)).length :=
          le_trans (by simp) (strBytes_length_ge _)
        have hlenB4 : 3 ≤ (strBytes (c1 :: c2 :: t2)).length := by
          rw [strBytes_cons]
          simp only [List.length_append]
          omega
        have hbd : isCharBoundary (strBytes (c1 :: c2 :: t2)) 2 = false :=
          isCharBoundary_eq_false (by omega) (by omega)
            (by rw [hgd]; exact utf8Bytes_getD_two_cont h800)
        rw [calc_minutes,
          calcMinutesBytes_bad_boundary (by simp [strBytes_eq_nil]) hcolB hlenB hbd] at h
        exact absurd h (by simp)

theorem calcMinutesBytes_short {s : List Nat} (h : s.length < 2) :
    calcMinutesBytes s = .ok none := by
  unfold calcMinutesBytes
  split
  · rfl
  · split
    · rfl
    · simp [h]

theorem parseU32_ne_colon {s : List Nat} {v : Nat} (h : parseU32 s = some v) :
    0x3A ∉ s := by
  intro hmem
  rcases parseU32_all_digits h 0x3A hmem with he | hd
  · omega
  · simp [isDigitByte] at hd

theorem calc_minutes_total_ascii (s : List Char) (hascii : ∀ c ∈ s, c.toNat < 0x80)
    (hlen : s.length ≤ 11) : ∃ r, calc_minutes s = .ok r := by
  by_cases hcol : (':') ∈ s
  case neg => exact ⟨none, calc_minutes_no_colon hcol⟩
  case pos =>
  match s, hascii, hlen, hcol with
  | [], _, _, hcol => simp at hcol
  | [c1], hascii, _, _ =>
    refine ⟨none, ?_⟩
    rw [calc_minutes, calcMinutesBytes_short]
    rw [strBytes_cons, strBytes_nil, utf8Bytes_ascii (hascii c1 (by simp))]
    simp
  | c1 :: c2 :: t2, hascii, hlen, hcol =>
    have hc1 : c1.toNat < 0x80 := hascii c1 (by simp)
    have hc2 : c2.toNat < 0x80 := hascii c2 (by simp)
    rw [calc_minutes, strBytes_cons_cons_ascii hc1 hc2,
      calcMinutesBytes_main (by simp)
        (by rw [← strBytes_cons_cons_ascii hc1 hc2]; exact (mem_strBytes_colon _).mpr hcol)
        (by simp) (isCharBoundary_cons_cons_two _ _ t2)]
    simp only [List.take_succ_cons, List.take_zero, List.drop_succ_cons, List.drop_zero]
    cases hfront : parseU32 [c1.toNat, c2.toNat] with
    | none => exact ⟨none, rfl⟩
    | some hh =>
      dsimp only
      have hcolT : (':') ∈ t2 := by
        have hnc := parseU32_ne_colon hfront
        rcases List.mem_cons.mp hcol with he | hrest
        · subst he
          exact absurd (List.mem_cons.mpr (Or.inl (by decide))) hnc
        · rcases List.mem_cons.mp hrest with he | hmem
          · subst he
            exact absurd
              (List.mem_cons.mpr (Or.inr (List.mem_cons.mpr (Or.inl (by decide))))) hnc
          · exact hmem
      match t2, hcolT with
      | c3 :: t3, _ =>
        have hc3 : c3.toNat < 0x80 := hascii c3 (by simp)
        have hback : strBytes (c3 :: t3) = c3.toNat :: strBytes t3 := by
          rw [strBytes_cons, utf8Bytes_ascii hc3]
          rfl
        rw [hback, if_neg (by simp), if_neg (by simp [isCharBoundary_cons_one])]
        simp only [List.drop_succ_cons, List.drop_zero]
        cases hmin : parseU32 (strBytes t3) with
        | none => exact ⟨none, rfl⟩
        | some mm =>
          dsimp only
          have hhlt : hh < 100 := by
            have := parseU32_lt hfront
            simpa using this
          have hmmlt : mm < 10 ^ 8 := by
            have h1 := parseU32_lt hmin
            have h2 : (strBytes t3).length = t3.length := by
              rw [strBytes_ascii (fun c hc => hascii c (by simp [hc]))]
              simp
            have h3 : t3.length ≤ 8 := by
              simp only [List.length_cons] at hlen
              omega
            calc mm < 10 ^ (strBytes t3).length := h1
            _ ≤ 10 ^ 8 := by
              rw [h2]
              exact Nat.pow_le_pow_right (by omega) h3
          refine ⟨some (hh * 60 + mm), ?_⟩
          rw [if_pos]
          have h8 : (10 : Nat) ^ 8 = 100000000 := by norm_num
          have h32 : (2 : Nat) ^ 32 = 4294967296 := by norm_num
          omega

theorem calc_minutes_nil : calc_minutes [] = .ok none := rfl

theorem subU32_inv {a b w : Nat} (h : subU32 a b = .ok w) : b ≤ a ∧ w = a - b := by
  unfold subU32 at h
  split at h
  · exact ⟨by assumption, (Except.ok.inj h).symm⟩
  · exact absurd h (by simp)

theorem addU32_inv {a b w : Nat} (h : addU32 a b = .ok w) : w = a + b := by
  unfold addU32 at h
  split at h
  · exact (Except.ok.inj h).symm
  · exact absurd h (by simp)

theorem subU32_ok {a b : Nat} (h : b ≤ a) : subU32 a b = .ok (a - b) := by
  unfold subU32
  rw [if_pos h]

theorem addU32_ok {a b : Nat} (h : a + b < 2 ^ 32) : addU32 a b = .ok (a + b) := by
  unfold addU32
  rw [if_pos h]

theorem rowWorked_some {r : Row} {s e : Nat}
    (hs : calc_minutes r.start_time = .ok (some s))
    (he : calc_minutes r.end_time = .ok (some e)) :
    rowWorked r = e - s := by
  unfold rowWorked
  rw [hs, he]

theorem rowWorked_start_none {r : Row}
    (hs : calc_minutes r.start_time = .ok none) : rowWorked r = 0 := by
  unfold rowWorked
  rw [hs]

theorem rowWorked_end_none {r : Row} {os : Option Nat}
    (hs : calc_minutes r.start_time = .ok os)
    (he : calc_minutes r.end_time = .ok none) : rowWorked r = 0 := by
  unfold rowWorked
  rw [hs, he]
  cases os <;> rfl

theorem rowBreak_start_none {r : Row}
    (hs : calc_minutes r.start_time = .ok none) : rowBreak r = 0 := by
  unfold rowBreak
  rw [hs]

theorem rowBreak_eq {r : Row} {s e : Nat} {ob : Option Nat}
    (hs : calc_minutes r.start_time = .ok (some s))
    (he : calc_minutes r.end_time = .ok (some e))
    (hb : calc_minutes r.break_time = .ok ob) :
    rowBreak r = ob.getD 0 := by
  unfold rowBreak
  rw [hs, he, hb]

theorem rowBreak_end_none {r : Row} {os : Option Nat}
    (hs : calc_minutes r.start_time = .ok os)
    (he : calc_minutes r.end_time = .ok none) : rowBreak r = 0 := by
  unfold rowBreak
  rw [hs, he]
  cases os <;> rfl

theorem processRow_empty_start (csv : Bool) (tp tb : Nat) {r : Row}
    (h : r.start_time = []) : processRow csv tp tb r = .ok (tp, tb, none) := by
  unfold processRow
  rw [if_pos (by simp [h])]

theorem processRow_skip (csv : Bool) (tp tb : Nat) {r : Row} {os oe : Option Nat}
    (hs : calc_minutes r.start_time = .ok os)
    (he : calc_minutes r.end_time = .ok oe)
    (hnone : os = none ∨ oe = none) :
    processRow csv tp tb r = .ok (tp, tb, none) := by
  unfold processRow
  split
  · rfl
  · rw [hs, he]
    rcases hnone with rfl | rfl
    · rfl
    · cases os <;> rfl

theorem processRow_counted (csv : Bool) (tp tb : Nat) {r : Row} {s e : Nat}
    {ob : Option Nat}
    (hs : calc_minutes r.start_time = .ok (some s))
    (he : calc_minutes r.end_time = .ok (some e))
    (hb : calc_minutes r.break_time = .ok ob)
    (hse : s ≤ e) (hbe : ob.getD 0 ≤ e - s)
    (htp : tp + (e - s) < 2 ^ 32) (htb : tb + ob.getD 0 < 2 ^ 32) :
    processRow csv tp tb r =
      .ok (tp + (e - s), tb + ob.getD 0,
        if csv then some (csvLine r (e - s - ob.getD 0)) else none) := by
  have hne : r.start_time ≠ [] := by
    intro hcon
    rw [hcon, calc_minutes_nil] at hs
    exact absurd (Except.ok.inj hs) (by simp)
  unfold processRow
  rw [if_neg (by simpa using hne), hs, he, hb]
  dsimp only
  rw [subU32_ok hse]
  dsimp only
  rw [addU32_ok htp]
  dsimp only
  rw [addU32_ok htb]
  cases csv with
  | true =>
    dsimp only
    rw [subU32_ok hbe]
    rfl
  | false =>
    rfl

theorem processRow_ok {csv : Bool} {tp tb : Nat} {r : Row} {tp' tb' : Nat}
    {line : Option (List Char)}
    (h : processRow csv tp tb r = .ok (tp', tb', line)) :
    tp' = tp + rowWorked r ∧ tb' = tb + rowBreak r := by
  unfold processRow at h
  split at h
  · rename_i hst
    have hs0 : calc_minutes r.start_time = .ok none := by
      have hnil : r.start_time = [] := by simpa using hst
      rw [hnil, calc_minutes_nil]
    simp only [Except.ok.injEq, Prod.mk.injEq] at h
    obtain ⟨h1, h2, _⟩ := h
    rw [rowWorked_start_none hs0, rowBreak_start_none hs0]
    omega
  · cases hs : calc_minutes r.start_time with
    | error p =>
      rw [hs] at h
      exact absurd h (by simp)
    | ok os =>
      rw [hs] at h
      cases he : calc_minutes r.end_time with
      | error p =>
        rw [he] at h
        exact absurd h (by simp)
      | ok oe =>
        rw [he] at h
        dsimp only at h
        match os, oe, hs, he with
        | none, oe, hs, he =>
          cases oe <;>
            (simp only [Except.ok.injEq, Prod.mk.injEq] at h
             obtain ⟨h1, h2, _⟩ := h
             rw [rowWorked_start_none hs, rowBreak_start_none hs]
             omega)
        | some s, none, hs, he =>
          simp only [Except.ok.injEq, Prod.mk.injEq] at h
          obtain ⟨h1, h2, _⟩ := h
          rw [rowWorked_end_none hs he, rowBreak_end_none hs he]
          omega
        | some s, some e, hs, he =>
          cases hb : calc_minutes r.break_time with
          | error p =>
            rw [hb] at h
            exact absurd h (by simp)
          | ok ob =>
            rw [hb] at h
            dsimp only at h
            cases hsub : subU32 e s with
            | error p =>
              rw [hsub] at h
              exact absurd h (by simp)
            | ok w =>
              rw [hsub] at h
              dsimp only at h
              obtain ⟨hse, hww⟩ := subU32_inv hsub
              cases htp : addU32 tp w with
              | error p =>
                rw [htp] at h
                exact absurd h (by simp)
              | ok tp1 =>
                rw [htp] at h
                dsimp only at h
                cases htb : addU32 tb (ob.getD 0) with
                | error p =>
                  rw [htb] at h
                  exact absurd h (by simp)
                | ok tb1 =>
                  rw [htb] at h
                  dsimp only at h
                  have htp1 := addU32_inv htp
                  have htb1 := addU32_inv htb
                  rw [rowWorked_some hs he, rowBreak_eq hs he hb]
                  have hfin : tp' = tp1 ∧ tb' = tb1 := by
                    split at h
                    · cases hsub2 : subU32 w (ob.getD 0) with
                      | error p =>
                        rw [hsub2] at h
                        exact absurd h (by simp)
                      | ok w2 =>
                        rw [hsub2] at h
                        simp only [Except.ok.injEq, Prod.mk.injEq] at h
                        exact ⟨h.1.symm, h.2.1.symm⟩
                    · simp only [Except.ok.injEq, Prod.mk.injEq] at h
                      exact ⟨h.1.symm, h.2.1.symm⟩
                  obtain ⟨hf1, hf2⟩ := hfin
                  subst hf1 hf2 htp1 htb1 hww
                  exact ⟨rfl, rfl⟩

theorem runRows_sums (csv : Bool) : ∀ (rows : List Row) (tp tb W B : Nat)
    (L : List (List Char)), runRows csv rows tp tb = .ok (W, B, L) →
    W = tp + (rows.map rowWorked).sum ∧ B = tb + (rows.map rowBreak).sum
  | [], tp, tb, W, B, L, h => by
    unfold runRows at h
    simp only [Except.ok.injEq, Prod.mk.injEq] at h
    obtain ⟨h1, h2, _⟩ := h
    simp [← h1, ← h2]
  | r :: rs, tp, tb, W, B, L, h => by
    unfold runRows at h
    cases hpr : processRow csv tp tb r with
    | error p =>
      rw [hpr] at h
      exact absurd h (by simp)
    | ok out =>
      obtain ⟨tp', tb', line⟩ := out
      rw [hpr] at h
      dsimp only at h
      cases hrr : runRows csv rs tp' tb' with
      | error p =>
        rw [hrr] at h
        exact absurd h (by simp)
      | ok out2 =>
        obtain ⟨tpF, tbF, lines⟩ := out2
        rw [hrr] at h
        dsimp only at h
        simp only [Except.ok.injEq, Prod.mk.injEq] at h
        obtain ⟨h1, h2, _⟩ := h
        obtain ⟨hw, hb⟩ := processRow_ok hpr
        obtain ⟨hW, hB⟩ := runRows_sums csv rs tp' tb' tpF tbF lines hrr
        subst h1 h2
        constructor
        · rw [hW, hw]
          simp only [List.map_cons, List.sum_cons]
          omega
        · rw [hB, hb]
          simp only [List.map_cons, List.sum_cons]
          omega

theorem validateReviseTime_ok_iff (t : List Char) :
    validateReviseTime t = .ok () ↔
      t.length = 4 ∧ ∃ v, parseI64 (t.map Char.toNat) = some v ∧ 0 ≤ v ∧ v ≤ 2600 := by
  constructor
  · intro h
    unfold validateReviseTime at h
    split at h
    · exact absurd h (by simp)
    · rename_i hlen4
      cases hp : parseI64 (strBytes t) with
      | none =>
        rw [hp] at h
        exact absurd h (by simp)
      | some v =>
        rw [hp] at h
        dsimp only at h
        split at h
        · rename_i hrange
          have hascii : ∀ c ∈ t, c.toNat < 0x80 := by
            intro c hc
            by_contra hge
            obtain ⟨b, hbmem, hb80⟩ := exists_high_byte hc (Nat.not_lt.mp hge)
            rw [parseI64_none_of_ge hbmem hb80] at hp
            exact absurd hp (by simp)
          have hmap : strBytes t = t.map Char.toNat := strBytes_ascii hascii
          rw [hmap] at hlen4 hp
          have hlen : t.length = 4 := by simpa using hlen4
          exact ⟨hlen, v, hp, hrange.1, hrange.2⟩
        · exact absurd h (by simp)
  · rintro ⟨hlen, v, hp, h0, h2600⟩
    have hascii : ∀ c ∈ t, c.toNat < 0x80 := by
      intro c hc
      by_contra hge
      rw [parseI64_none_of_ge (List.mem_map_of_mem Char.toNat hc)
        (by simpa using Nat.not_lt.mp hge)] at hp
      exact absurd hp (by simp)
    have hmap : strBytes t = t.map Char.toNat := strBytes_ascii hascii
    unfold validateReviseTime
    rw [hmap]
    rw [if_neg (by simp [hlen]), hp]
    dsimp only
    rw [if_pos ⟨h0, h2600⟩]

theorem mainEvents_of_preflight_error {pd pc : List Char → Bool} {v : Bool}
    {sl : Option Nat} {cmd : SubCommand} {err : PreflightError}
    (h : preflight pd v sl cmd = .error err) :
    mainEvents pd pc v sl cmd = [.preflightFail] := by
  unfold mainEvents
  rw [h]

theorem mainEvents_list_bad_month (pd pc : List Char → Bool) (v : Bool)
    (sl : Option Nat) (ds : List Char) (c : Bool)
    (h : pc (ds ++ ('0' :: ['1'])) = false) :
    mainEvents pd pc v sl (.list (some ds) c) = [.sessionOpen, .listDateFail] := by
  unfold mainEvents
  rw [show preflight pd v sl (.list (some ds) c) = .ok () from rfl]
  dsimp only
  rw [h]
  rfl

theorem post_to_slack_disabled (config : Configuration) (ch m : List Char)
    (ul : Except Unit (List SlackMember)) (ui : List Char → Except Unit SlackUserInfo)
    (cp : PostMessageReq → Except Unit Unit)
    (h : config.can_post_to_slack = false) :
    post_to_slack config ch m ul ui cp = .ok () := by
  unfold post_to_slack
  rw [h]
  rfl

theorem post_to_slack_no_marker (config : Configuration) (ch m : List Char)
    (ul : Except Unit (List SlackMember)) (ui : List Char → Except Unit SlackUserInfo)
    (cp : PostMessageReq → Except Unit Unit)
    (h1 : config.can_post_to_slack = true) (h2 : ch.contains '#' = false) :
    post_to_slack config ch m ul ui cp = .error .channelMarkerMissing := by
  unfold post_to_slack
  rw [h1, h2]
  rfl

theorem post_to_slack_user_not_found (config : Configuration) (ch m : List Char)
    (ms : List SlackMember) (ui : List Char → Except Unit SlackUserInfo)
    (cp : PostMessageReq → Except Unit Unit)
    (h1 : config.can_post_to_slack = true) (h2 : ch.contains '#' = true)
    (h3 : ms.find? (fun u => u.name == some config.slack_user_name) = none) :
    post_to_slack config ch m (.ok ms) ui cp = .error .userNotFound := by
  unfold post_to_slack
  rw [h1, h2]
  dsimp only
  rw [h3]
  rfl

theorem post_to_slack_no_profile (config : Configuration) (ch m : List Char)
    (ms : List SlackMember) (mem : SlackMember)
    (ui : List Char → Except Unit SlackUserInfo) (cp : PostMessageReq → Except Unit Unit)
    (h1 : config.can_post_to_slack = true) (h2 : ch.contains '#' = true)
    (h3 : ms.find? (fun u => u.name == some config.slack_user_name) = some mem)
    (h4 : ui mem.id = .ok ⟨none⟩) :
    post_to_slack config ch m (.ok ms) ui cp = .error .noProfile := by
  unfold post_to_slack
  rw [h1, h2]
  dsimp only
  rw [h3]
  dsimp only
  rw [h4]
  rfl

theorem post_to_slack_post_error (config : Configuration) (ch m : List Char)
    (ms : List SlackMember) (mem : SlackMember) (prof : SlackProfile)
    (ui : List Char → Except Unit SlackUserInfo) (cp : PostMessageReq → Except Unit Unit)
    (h1 : config.can_post_to_slack = true) (h2 : ch.contains '#' = true)
    (h3 : ms.find? (fun u => u.name == some config.slack_user_name) = some mem)
    (h4 : ui mem.id = .ok ⟨some prof⟩) (h5 : ∀ req, cp req = .error ()) :
    post_to_slack config ch m (.ok ms) ui cp = .error .apiPost := by
  unfold post_to_slack
  rw [h1, h2]
  dsimp only
  rw [h3]
  dsimp only
  rw [h4]
  dsimp only
  rw [h5]
  rfl

theorem post_to_slack_success (config : Configuration) (ch m : List Char)
    (ms : List SlackMember) (mem : SlackMember) (prof : SlackProfile)
    (ui : List Char → Except Unit SlackUserInfo) (cp : PostMessageReq → Except Unit Unit)
    (h1 : config.can_post_to_slack = true) (h2 : ch.contains '#' = true)
    (h3 : ms.find? (fun u => u.name == some config.slack_user_name) = some mem)
    (h4 : ui mem.id = .ok ⟨some prof⟩) (h5 : ∀ req, cp req = .ok ()) :
    post_to_slack config ch m (.ok ms) ui cp = .ok () := by
  unfold post_to_slack
  rw [h1, h2]
  dsimp only
  rw [h3]
  dsimp only
  rw [h4]
  dsimp only
  rw [h5]
  rfl

/-- Claim C1 (amended): for every input string on which `calc_minutes`
returns a value (it panics when a byte slice falls inside a multi-byte
character, or when `hours * 60 + minutes` overflows `u32`), the result
is `None` exactly when the string is empty, contains no `:`, is shorter
than 2 characters, or the first 2 characters / the remainder after the
skipped delimiter fail to parse as `u32`; otherwise it is
`Some (hours * 60 + minutes)` with no upper bound on the hour value —
formalised as refinement of `specCalcMinutes`, the parser written from
the claim's words, together with all the claim's example values. -/
theorem c1_time_parse_refines_spec :
    (∀ (s : List Char) (r : Option Nat),
      calc_minutes s = .ok r → r = specCalcMinutes s) ∧
    calc_minutes ("06:45").toList = .ok (some 405) ∧
    calc_minutes ("23:59").toList = .ok (some 1439) ∧
    calc_minutes ("00:01").toList = .ok (some 1) ∧
    calc_minutes ("").toList = .ok none ∧
    calc_minutes (":").toList = .ok none ∧
    calc_minutes ("0:0").toList = .ok none ∧
    calc_minutes ("mm:11").toList = .ok none ∧
    calc_minutes ("11:mm").toList = .ok none ∧
    calc_minutes ("26:00").toList = .ok (some 1560) :=
  ⟨calc_minutes_ok, rfl, rfl, rfl, rfl, rfl, rfl, rfl, rfl, rfl⟩

/-- Claim C1 witness: the refinement applied at the concrete input
`"06:45"`, whose hypothesis is discharged by evaluation. -/
theorem c1_witness : (some 405 : Option Nat) = specCalcMinutes ("06:45").toList :=
  c1_time_parse_refines_spec.1 (("06:45").toList) (some 405) rfl

/-- Claim C1 counterexample: on `"あ:1"` the claim as stated requires
`None` (the first 2 characters fail to parse), but `calc_minutes`
panics: `split_at(2)` hits byte offset 2 inside the 3-byte `あ`. -/
theorem c1_counterexample_multibyte_panic :
    calc_minutes ("あ:1").toList = .error PanicKind.charBoundary ∧
    specCalcMinutes ("あ:1").toList = none :=
  ⟨rfl, rfl⟩

/-- Claim C2 (amended): `calc_minutes` is pure, and it returns an
`Option` value (never panics) on every string of ASCII characters of
length at most 11, in particular on every well-formed timestamp; the
multi-byte status label `"勤務中"` is also handled (it contains no
colon).  It is not total on arbitrary text: see the counterexample. -/
theorem c2_time_parse_total_on_ascii :
    (∀ s : List Char, (∀ c ∈ s, c.toNat < 0x80) → s.length ≤ 11 →
      ∃ r, calc_minutes s = .ok r) ∧
    calc_minutes ("勤務中").toList = .ok none :=
  ⟨calc_minutes_total_ascii, rfl⟩

/-- Claim C2 witness: totality applied at the concrete ASCII input
`"09:51"`, with side conditions discharged by evaluation. -/
theorem c2_witness : ∃ r, calc_minutes ("09:51").toList = .ok r :=
  c2_time_parse_total_on_ascii.1 (("09:51").toList) (by decide) (by decide)

/-- Claim C2 counterexample: the claim says the parser returns an
`Option` for every input and never panics, but on `"12あ:3"` the byte
slice `back[1..]` falls inside the 3-byte `あ` and the code panics. -/
theorem c2_counterexample_tail_panic :
    calc_minutes ("12あ:3").toList = .error PanicKind.charBoundary := rfl

/-- Claim C3: a row with empty start contributes nothing and emits no
CSV line; a row whose start or end fails to parse contributes nothing,
including its break minutes; a row whose start and end parse but whose
break does not is still counted with break contribution zero. -/
theorem c3_row_contribution :
    (∀ (csv : Bool) (tp tb : Nat) (r : Row), r.start_time = [] →
      processRow csv tp tb r = .ok (tp, tb, none)) ∧
    (∀ (csv : Bool) (tp tb : Nat) (r : Row) (os oe : Option Nat),
      calc_minutes r.start_time = .ok os → calc_minutes r.end_time = .ok oe →
      os = none ∨ oe = none → processRow csv tp tb r = .ok (tp, tb, none)) ∧
    (∀ (csv : Bool) (tp tb : Nat) (r : Row) (s e : Nat),
      calc_minutes r.start_time = .ok (some s) →
      calc_minutes r.end_time = .ok (some e) →
      calc_minutes r.break_time = .ok none →
      s ≤ e → tp + (e - s) < 2 ^ 32 → tb < 2 ^ 32 →
      processRow csv tp tb r =
        .ok (tp + (e - s), tb, if csv then some (csvLine r (e - s)) else none)) :=
  ⟨fun csv tp tb _ h => processRow_empty_start csv tp tb h,
   fun csv tp tb _ _ _ hs he hnone => processRow_skip csv tp tb hs he hnone,
   fun csv tp tb _ _ _ hs he hb hse htp htb =>
     processRow_counted csv tp tb hs he hb hse (Nat.zero_le _) htp htb⟩

/-- Claim C3 witness: the three cases applied at concrete rows. -/
theorem c3_witness :
    processRow true 7 8 ⟨("06/03").toList, [], [], ("18:00").toList, ("01:00").toList⟩ =
      .ok (7, 8, none) ∧
    processRow false 7 8
      ⟨("06/04").toList, [], ("mm:11").toList, ("18:00").toList, ("01:00").toList⟩ =
      .ok (7, 8, none) ∧
    processRow false 0 0
      ⟨("06/05").toList, [], ("09:00").toList, ("18:00").toList, ("br").toList⟩ =
      .ok (540, 0, none) :=
  ⟨c3_row_contribution.1 true 7 8 _ rfl,
   c3_row_contribution.2.1 false 7 8 _ none (some 1080) rfl rfl (Or.inl rfl),
   c3_row_contribution.2.2 false 0 0 _ 540 1080 rfl rfl rfl (by decide) (by decide)
     (by decide)⟩

/-- Claim C4: the grand totals equal the sums of the counted rows'
worked and break minutes; the spec's two-row example yields
960/90/870 rendered as 14:30; the empty sequence raises no error and
totals are zero. -/
theorem c4_grand_totals :
    (∀ (csv : Bool) (rows : List Row) (W B : Nat) (L : List (List Char)),
      runRows csv rows 0 0 = .ok (W, B, L) →
      W = (rows.map rowWorked).sum ∧ B = (rows.map rowBreak).sum) ∧
    (runRows false
        [⟨("06/01").toList, [], ("09:00").toList, ("18:00").toList, ("01:00").toList⟩,
         ⟨("06/02").toList, [], ("10:00").toList, ("17:00").toList, ("00:30").toList⟩]
        0 0 = .ok (960, 90, []) ∧
      subU32 960 90 = .ok 870 ∧ grandTotals 960 90 = .ok (14, 30)) ∧
    (∀ csv : Bool, runRows csv [] 0 0 = .ok (0, 0, []) ∧ grandTotals 0 0 = .ok (0, 0)) := by
  refine ⟨?_, ⟨rfl, rfl, rfl⟩, fun csv => ⟨rfl, rfl⟩⟩
  intro csv rows W B L h
  have hsum := runRows_sums csv rows 0 0 W B L h
  simpa using hsum

/-- Claim C4 witness: the sum characterisation applied at the spec's
two-row example. -/
theorem c4_witness :
    (960 : Nat) =
      (([⟨("06/01").toList, [], ("09:00").toList, ("18:00").toList, ("01:00").toList⟩,
         ⟨("06/02").toList, [], ("10:00").toList, ("17:00").toList, ("00:30").toList⟩] :
        List Row).map rowWorked).sum ∧
    (90 : Nat) =
      (([⟨("06/01").toList, [], ("09:00").toList, ("18:00").toList, ("01:00").toList⟩,
         ⟨("06/02").toList, [], ("10:00").toList, ("17:00").toList, ("00:30").toList⟩] :
        List Row).map rowBreak).sum :=
  c4_grand_totals.1 false
    [⟨("06/01").toList, [], ("09:00").toList, ("18:00").toList, ("01:00").toList⟩,
     ⟨("06/02").toList, [], ("10:00").toList, ("17:00").toList, ("00:30").toList⟩]
    960 90 [] rfl

/-- Claim C5: in CSV mode each row whose start and end parse emits
exactly one line `date;start;end;break;HH:MM`, the trailing field
being worked minutes minus break minutes, zero-padded; for
09:00/18:00/01:00 the trailing field is 08:00. -/
theorem c5_csv_line :
    (∀ (tp tb : Nat) (r : Row) (s e : Nat) (ob : Option Nat),
      calc_minutes r.start_time = .ok (some s) →
      calc_minutes r.end_time = .ok (some e) →
      calc_minutes r.break_time = .ok ob →
      s ≤ e → ob.getD 0 ≤ e - s →
      tp + (e - s) < 2 ^ 32 → tb + ob.getD 0 < 2 ^ 32 →
      processRow true tp tb r =
        .ok (tp + (e - s), tb + ob.getD 0,
          some (r.date ++ [';'] ++ r.start_time ++ [';'] ++ r.end_time ++ [';'] ++
            r.break_time ++ [';'] ++ pad2 ((e - s - ob.getD 0) / 60) ++ [':'] ++
            pad2 ((e - s - ob.getD 0) % 60)))) ∧
    processRow true 0 0
      ⟨("06/01").toList, [], ("09:00").toList, ("18:00").toList, ("01:00").toList⟩ =
      .ok (540, 60, some (("06/01;09:00;18:00;01:00;08:00").toList)) := by
  constructor
  · intro tp tb r s e ob hs he hb hse hbe htp htb
    rw [processRow_counted true tp tb hs he hb hse hbe htp htb]
    simp [csvLine, List.append_assoc]
  · rfl

/-- Claim C5 witness: the line format applied at a concrete row. -/
theorem c5_witness :
    processRow true 0 0
      ⟨("06/02").toList, [], ("10:00").toList, ("17:00").toList, ("00:30").toList⟩ =
      .ok (0 + (1020 - 600), 0 + (some 30 : Option Nat).getD 0,
        some ((("06/02").toList) ++ [';'] ++ (("10:00").toList) ++ [';'] ++
          (("17:00").toList) ++ [';'] ++ (("00:30").toList) ++ [';'] ++
          pad2 ((1020 - 600 - (some 30 : Option Nat).getD 0) / 60) ++ [':'] ++
          pad2 ((1020 - 600 - (some 30 : Option Nat).getD 0) % 60))) :=
  c5_csv_line.1 0 0 _ 600 1020 (some 30) rfl rfl rfl (by decide) (by decide)
    (by decide) (by decide)

/-- Claim C6: the revise-clock time argument is accepted iff it is
exactly 4 characters and parses as an integer in [0, 2600]: 2600 is
accepted, 2601 rejected, and 3- or 5-character strings are rejected by
the length check before numeric parsing; a supplied date must parse or
the run is rejected. -/
theorem c6_revise_clock_validation :
    (∀ (pd : List Char → Bool) (d : Option (List Char)) (t : List Char),
      validateReviseClock pd d t = .ok () ↔
        ((∀ ds, d = some ds → pd ds = true) ∧ t.length = 4 ∧
         ∃ v, parseI64 (t.map Char.toNat) = some v ∧ 0 ≤ v ∧ v ≤ 2600)) ∧
    validateReviseTime (("2600").toList) = .ok () ∧
    validateReviseTime (("2601").toList) = .error .timeRange ∧
    validateReviseTime (("260").toList) = .error .timeLength ∧
    validateReviseTime (("26000").toList) = .error .timeLength ∧
    (∀ (pd : List Char → Bool) (ds t : List Char), pd ds = false →
      validateReviseClock pd (some ds) t = .error .dateFormat) := by
  refine ⟨?_, rfl, rfl, rfl, rfl, ?_⟩
  · intro pd d t
    cases d with
    | none =>
      unfold validateReviseClock
      rw [validateReviseTime_ok_iff]
      constructor
      · rintro ⟨h1, h2⟩
        exact ⟨fun ds hds => absurd hds (by simp), h1, h2⟩
      · rintro ⟨_, h1, h2⟩
        exact ⟨h1, h2⟩
    | some ds =>
      unfold validateReviseClock
      dsimp only
      by_cases hpd : pd ds = true
      · rw [if_pos hpd, validateReviseTime_ok_iff]
        constructor
        · rintro ⟨h1, h2⟩
          refine ⟨fun x hx => ?_, h1, h2⟩
          cases hx
          exact hpd
        · rintro ⟨_, h1, h2⟩
          exact ⟨h1, h2⟩
      · rw [if_neg hpd]
        constructor
        · intro hcon
          exact absurd hcon (by simp)
        · rintro ⟨h1, _⟩
          exact absurd (h1 ds rfl) hpd
  · intro pd ds t h
    unfold validateReviseClock
    dsimp only
    rw [if_neg (by simp [h])]

/-- Claim C6 witness: a failing date parse rejects the run, applied at
a concrete parser and arguments. -/
theorem c6_witness :
    validateReviseClock (fun _ => false) (some []) (("2600").toList) =
      .error .dateFormat :=
  c6_revise_clock_validation.2.2.2.2.2 (fun _ => false) [] (("2600").toList) rfl

/-- Claim C7 (code bug): the claim and the subcommand's own help text
require visible mode AND a positive sleep, but the guard
`!opts.visible || opts.sleep_time.is_none()` accepts `sleep = Some 0`:
with `visible = true, sleep_time = some 0` the pre-flight check passes
and the browser session opens. -/
theorem c7_login_guard_code_bug :
    preflight parseDashedDate true (some 0) SubCommand.login = .ok () ∧
    mainEvents parseDashedDate parseCompactDate true (some 0) SubCommand.login =
      [Event.sessionOpen, Event.done] :=
  ⟨rfl, rfl⟩

/-- Claim C8 (amended): revise-clock and login validation errors are
reported before the browser session opens, but the list month argument
is not validated pre-flight at all: it is reinterpreted as
`YYYYMM ++ "01"` and parsed only after the session is open, and its
failure aborts the run there. -/
theorem c8_list_month_after_session :
    (∀ (pd pc : List Char → Bool) (v : Bool) (sl : Option Nat) (cmd : SubCommand)
      (err : PreflightError), preflight pd v sl cmd = .error err →
      mainEvents pd pc v sl cmd = [Event.preflightFail]) ∧
    (∀ (pd : List Char → Bool) (v : Bool) (sl : Option Nat) (d : Option (List Char))
      (c : Bool), preflight pd v sl (SubCommand.list d c) = .ok ()) ∧
    (∀ (pd pc : List Char → Bool) (v : Bool) (sl : Option Nat) (ds : List Char)
      (c : Bool), pc (ds ++ ('0' :: ['1'])) = false →
      mainEvents pd pc v sl (SubCommand.list (some ds) c) =
        [Event.sessionOpen, Event.listDateFail]) :=
  ⟨fun _ _ _ _ _ _ h => mainEvents_of_preflight_error h,
   fun _ _ _ _ _ => rfl,
   fun pd pc v sl ds c h => mainEvents_list_bad_month pd pc v sl ds c h⟩

/-- Claim C8 witness: a malformed revise-clock time is caught before
the session opens. -/
theorem c8_witness :
    mainEvents parseDashedDate parseCompactDate false none
      (SubCommand.reviseClockingData none (("260").toList) []) =
      [Event.preflightFail] :=
  c8_list_month_after_session.1 parseDashedDate parseCompactDate false none
    (SubCommand.reviseClockingData none (("260").toList) [])
    PreflightError.timeLength rfl

/-- Claim C8 counterexample: for the list subcommand with the
unparseable month `"xx"`, the browser session opens first and the date
validation fails only afterwards, contradicting the claim that
malformed date arguments are reported before a session is opened. -/
theorem c8_counterexample_session_before_list_error :
    mainEvents parseDashedDate parseCompactDate false none
      (SubCommand.list (some (("xx").toList)) false) =
      [Event.sessionOpen, Event.listDateFail] := rfl

/-- Claim C9 (amended): when both notification configuration values are
set, `post_to_slack` fails the run when the channel string contains no
`#` anywhere (the code checks containment, not a leading marker), when
the sender is not found, when the found sender has no profile, or when
the post call errors; it succeeds when the collaborators succeed; and
with configuration absent it does nothing and returns success. -/
theorem c9_notification_outcomes :
    (∀ (config : Configuration) (ch m : List Char)
      (ul : Except Unit (List SlackMember)) (ui : List Char → Except Unit SlackUserInfo)
      (cp : PostMessageReq → Except Unit Unit), config.can_post_to_slack = false →
      post_to_slack config ch m ul ui cp = .ok ()) ∧
    (∀ (config : Configuration) (ch m : List Char)
      (ul : Except Unit (List SlackMember)) (ui : List Char → Except Unit SlackUserInfo)
      (cp : PostMessageReq → Except Unit Unit),
      config.can_post_to_slack = true → ch.contains '#' = false →
      post_to_slack config ch m ul ui cp = .error .channelMarkerMissing) ∧
    (∀ (config : Configuration) (ch m : List Char) (ms : List SlackMember)
      (ui : List Char → Except Unit SlackUserInfo) (cp : PostMessageReq → Except Unit Unit),
      config.can_post_to_slack = true → ch.contains '#' = true →
      ms.find? (fun u => u.name == some config.slack_user_name) = none →
      post_to_slack config ch m (.ok ms) ui cp = .error .userNotFound) ∧
    (∀ (config : Configuration) (ch m : List Char) (ms : List SlackMember)
      (mem : SlackMember) (ui : List Char → Except Unit SlackUserInfo)
      (cp : PostMessageReq → Except Unit Unit),
      config.can_post_to_slack = true → ch.contains '#' = true →
      ms.find? (fun u => u.name == some config.slack_user_name) = some mem →
      ui mem.id = .ok ⟨none⟩ →
      post_to_slack config ch m (.ok ms) ui cp = .error .noProfile) ∧
    (∀ (config : Configuration) (ch m : List Char) (ms : List SlackMember)
      (mem : SlackMember) (prof : SlackProfile)
      (ui : List Char → Except Unit SlackUserInfo) (cp : PostMessageReq → Except Unit Unit),
      config.can_post_to_slack = true → ch.contains '#' = true →
      ms.find? (fun u => u.name == some config.slack_user_name) = some mem →
      ui mem.id = .ok ⟨some prof⟩ → (∀ req, cp req = .error ()) →
      post_to_slack config ch m (.ok ms) ui cp = .error .apiPost) ∧
    (∀ (config : Configuration) (ch m : List Char) (ms : List SlackMember)
      (mem : SlackMember) (prof : SlackProfile)
      (ui : List Char → Except Unit SlackUserInfo) (cp : PostMessageReq → Except Unit Unit),
      config.can_post_to_slack = true → ch.contains '#' = true →
      ms.find? (fun u => u.name == some config.slack_user_name) = some mem →
      ui mem.id = .ok ⟨some prof⟩ → (∀ req, cp req = .ok ()) →
      post_to_slack config ch m (.ok ms) ui cp = .ok ()) :=
  ⟨fun config ch m ul ui cp h => post_to_slack_disabled config ch m ul ui cp h,
   fun config ch m ul ui cp h1 h2 => post_to_slack_no_marker config ch m ul ui cp h1 h2,
   fun config ch m ms ui cp h1 h2 h3 =>
     post_to_slack_user_not_found config ch m ms ui cp h1 h2 h3,
   fun config ch m ms mem ui cp h1 h2 h3 h4 =>
     post_to_slack_no_profile config ch m ms mem ui cp h1 h2 h3 h4,
   fun config ch m ms mem prof ui cp h1 h2 h3 h4 h5 =>
     post_to_slack_post_error config ch m ms mem prof ui cp h1 h2 h3 h4 h5,
   fun config ch m ms mem prof ui cp h1 h2 h3 h4 h5 =>
     post_to_slack_success config ch m ms mem prof ui cp h1 h2 h3 h4 h5⟩

/-- Claim C9 witness: absent configuration silently disables the
notification, applied at concrete inputs. -/
theorem c9_witness :
    post_to_slack ⟨("l").toList, ("p").toList, [], ("u").toList⟩ (("nochan").toList)
      (("m").toList) (.ok []) (fun _ => .ok ⟨none⟩) (fun _ => .ok ()) = .ok () :=
  c9_notification_outcomes.1 ⟨("l").toList, ("p").toList, [], ("u").toList⟩
    (("nochan").toList) (("m").toList) (.ok []) (fun _ => .ok ⟨none⟩)
    (fun _ => .ok ()) rfl

/-- Claim C9 counterexample: the claim says the run fails when the
channel lacks the required leading marker; with channel `"x#"` the
marker is not leading, yet the post succeeds because the code only
checks `contains('#')`. -/
theorem c9_counterexample_nonleading_marker :
    post_to_slack ⟨("l").toList, ("p").toList, ("t").toList, ("u").toList⟩
      (("x#").toList) (("m").toList)
      (.ok [⟨("U1").toList, some (("u").toList)⟩])
      (fun _ => .ok ⟨some ⟨some (("Disp").toList), none⟩⟩)
      (fun _ => .ok ()) = .ok () := rfl

/-- Claim C10: the aggregator's subtractions are plain `u32`
subtractions; under the claim's preconditions (end at least start,
break at most worked, accumulated break at most accumulated worked)
none of them underflow, and without them the computation is partial:
concrete rows and totals make each subtraction panic. -/
theorem c10_subtraction_safety :
    (∀ (csv : Bool) (tp tb : Nat) (r : Row) (s e : Nat) (ob : Option Nat),
      calc_minutes r.start_time = .ok (some s) →
      calc_minutes r.end_time = .ok (some e) →
      calc_minutes r.break_time = .ok ob →
      s ≤ e → ob.getD 0 ≤ e - s →
      tp + (e - s) < 2 ^ 32 → tb + ob.getD 0 < 2 ^ 32 →
      ∃ out, processRow csv tp tb r = .ok out) ∧
    (∀ tw tbk : Nat, tbk ≤ tw →
      grandTotals tw tbk = .ok ((tw - tbk) / 60, (tw - tbk) % 60)) ∧
    processRow false 0 0
      ⟨("06/07").toList, [], ("10:00").toList, ("09:00").toList, []⟩ =
      .error PanicKind.subUnderflow ∧
    processRow true 0 0
      ⟨("06/08").toList, [], ("09:00").toList, ("10:00").toList, ("02:00").toList⟩ =
      .error PanicKind.subUnderflow ∧
    grandTotals 30 60 = .error PanicKind.subUnderflow := by
  refine ⟨?_, ?_, rfl, rfl, rfl⟩
  · intro csv tp tb r s e ob hs he hb hse hbe htp htb
    exact ⟨_, processRow_counted csv tp tb hs he hb hse hbe htp htb⟩
  · intro tw tbk h
    unfold grandTotals
    split
    · rw [subU32_ok h]
    · rename_i hzero
      have h1 : tw = 0 := by omega
      subst h1
      have h2 : tbk = 0 := by omega
      subst h2
      rfl

/-- Claim C10 witness: the no-underflow parts applied at concrete
inputs satisfying the preconditions. -/
theorem c10_witness :
    (∃ out, processRow false 0 0
      ⟨("06/09").toList, [], ("09:00").toList, ("17:00").toList, ("00:45").toList⟩ =
      .ok out) ∧
    grandTotals 100 40 = .ok (1, 0) :=
  ⟨c10_subtraction_safety.1 false 0 0 _ 540 1020 (some 45) rfl rfl rfl (by decide)
     (by decide) (by decide) (by decide),
   c10_subtraction_safety.2.1 100 40 (by decide)⟩

end JobcanBot
